import Mathlib

/-!
Verification of the nvidia-migmanager reconciliation core
(src/sources/nvidia-migmanager/src/main.rs).

The pure analysis functions (`is_mig_capable`, `get_mig_mode`), the query
output parser, argument parsing and the reconciliation driver `run`/`main`
are embedded shallowly.  External command execution is modelled by a
`World` oracle mapping the index of each external call and the invocation
issued to an outcome; `run` threads the call index and records the trace
of invocations it issues.
-/

namespace MigManager

/-- The four MIG states of the Rust `enum MigState`. -/
inductive MigState where
  | Enabled
  | Disabled
  | Transition
  | Unknown
deriving DecidableEq, Repr

/-- One GPU record as produced by `run_gpu_query`: `(name, current, pending)`. -/
abbrev GpuRec := String × MigState × MigState

/-- `is_mig_capable` (main.rs:97-106): scans the records, returning `true` at
the first record whose current or pending state is not `Unknown`. -/
def is_mig_capable : List GpuRec → Bool
  | [] => false
  | (_, current, pending) :: rest =>
    if current ≠ MigState.Unknown ∨ pending ≠ MigState.Unknown then true
    else is_mig_capable rest

/-- `get_mig_mode` (main.rs:109-134): collects the distinct current and
pending values (the Rust `HashSet`s, here `List.dedup`); when both are
singletons the pair is looked up, otherwise the result is `Unknown`. -/
def get_mig_mode (modes : List GpuRec) : MigState :=
  let current_states := (modes.map fun m => m.2.1).dedup
  let pending_states := (modes.map fun m => m.2.2).dedup
  match current_states, pending_states with
  | [current_state], [pending_state] =>
    if current_state = MigState.Enabled ∧ pending_state = MigState.Enabled then
      MigState.Enabled
    else if current_state = MigState.Disabled ∧ pending_state = MigState.Disabled then
      MigState.Disabled
    else if current_state = MigState.Disabled ∧ pending_state = MigState.Enabled then
      MigState.Transition
    else
      MigState.Unknown
  | _, _ => MigState.Unknown

/-- `analyze_mig_status` (main.rs:141-151) minus logging: the pure pair. -/
def analyze_mig_status (mig_modes : List GpuRec) : Bool × MigState :=
  (is_mig_capable mig_modes, get_mig_mode mig_modes)

/-- Rebuild a string from its character list. -/
def ofChars (l : List Char) : String := ⟨l⟩

/-- Split a character list at every occurrence of the character `sep`
(the splitting underlying Rust `str::lines`). -/
def splitChar (sep : Char) : List Char → List (List Char)
  | [] => [[]]
  | c :: rest =>
    match splitChar sep rest with
    | [] => [[]]
    | h :: t => if c = sep then [] :: h :: t else (c :: h) :: t

/-- Split a character list at every occurrence of the two-character
separator `a b`, scanning left to right (Rust `str::split` with a
two-character pattern such as `", "`). -/
def splitSep2 (a b : Char) : List Char → List (List Char)
  | [] => [[]]
  | [c] => [[c]]
  | c :: d :: rest =>
    if c = a ∧ d = b then [] :: splitSep2 a b rest
    else
      match splitSep2 a b (d :: rest) with
      | [] => [[c]]
      | h :: t => (c :: h) :: t

/-- Rust `line.split(", ")` (main.rs:163). -/
def splitCommaSpace (line : String) : List String :=
  (splitSep2 ',' ' ' line.data).map ofChars

/-- Strip one trailing `'\r'` (the optional carriage return of a `"\r\n"`
line terminator). -/
def stripCR (l : List Char) : List Char :=
  if l.getLast? = some '\r' then l.dropLast else l

/-- Process the pieces obtained by splitting on `'\n'`: every piece except
the last was `'\n'`-terminated in the original text, so one trailing `'\r'`
is stripped from it; the last piece had no terminator, so it is kept
verbatim unless empty (a trailing newline yields no extra line). -/
def rustLinesAux : List (List Char) → List (List Char)
  | [] => []
  | [l] => if l = [] then [] else [l]
  | l :: rest => stripCR l :: rustLinesAux rest

/-- Rust `str::lines`: lines are terminated by `'\n'` or `"\r\n"`; a final
line without a terminator is kept as-is (including any lone trailing
`'\r'`). -/
def rustLines (s : String) : List String :=
  (rustLinesAux (splitChar '\n' s.data)).map ofChars

/-- The parsing loop of `run_gpu_query` (main.rs:162-181): each line is split
on `", "`; exactly-3-field lines are pushed as a record, mapping `"Enabled"`
and `"Disabled"` exactly and anything else to `Unknown`. -/
def run_gpu_query_parse (output : String) : List GpuRec :=
  (rustLines output).foldl
    (fun modes line =>
      let parts := splitCommaSpace line
      if parts.length = 3 then
        let current :=
          if parts[1]! = "Enabled" then MigState.Enabled
          else if parts[1]! = "Disabled" then MigState.Disabled
          else MigState.Unknown
        let pending :=
          if parts[2]! = "Enabled" then MigState.Enabled
          else if parts[2]! = "Disabled" then MigState.Disabled
          else MigState.Unknown
        modes ++ [(parts[0]!, current, pending)]
      else modes)
    []

/-- The `simplelog::LevelFilter` values relevant here. -/
inductive LevelFilter where
  | Off
  | Error
  | Warn
  | Info
  | Debug
  | Trace
deriving DecidableEq, Repr

/-- Uppercase the ASCII letters of a character (the normalisation inside
Rust `eq_ignore_ascii_case`). -/
def asciiUpperChar (c : Char) : Char :=
  if 'a' ≤ c ∧ c ≤ 'z' then Char.ofNat (c.toNat - 32) else c

/-- ASCII-uppercase a string. -/
def asciiUpper (s : String) : String := ofChars (s.data.map asciiUpperChar)

/-- `LevelFilter::from_str` of the `log` crate: an ASCII case-insensitive
match against the level names, `none` otherwise. -/
def levelFilterFromStr (s : String) : Option LevelFilter :=
  if asciiUpper s = "OFF" then some LevelFilter.Off
  else if asciiUpper s = "ERROR" then some LevelFilter.Error
  else if asciiUpper s = "WARN" then some LevelFilter.Warn
  else if asciiUpper s = "INFO" then some LevelFilter.Info
  else if asciiUpper s = "DEBUG" then some LevelFilter.Debug
  else if asciiUpper s = "TRACE" then some LevelFilter.Trace
  else none

/-- `DEFAULT_CONFIG_PATH` (main.rs:15). -/
def DEFAULT_CONFIG_PATH : String := "/etc/bootstrap-commands/bootstrap-commands.toml"

/-- `struct Args` (main.rs:49-52). -/
structure Args where
  log_level : LevelFilter
  config_path : String
deriving DecidableEq, Repr

/-- `impl Default for Args` (main.rs:54-61). -/
def Args.default : Args :=
  { log_level := LevelFilter.Info, config_path := DEFAULT_CONFIG_PATH }

/-- The error enum of `mod error` (main.rs:252-281).  `CommandFailure`
carries the binary path and the captured stderr; `ExecutionFailure` the
command path and the launch-failure message. -/
inductive Err where
  | CommandFailure (bin_path : String) (stderr : String)
  | ExecutionFailure (command : String) (msg : String)
  | Logger (msg : String)
  | LogLevel (log_level : String)
  | Usage (message : String)
deriving DecidableEq, Repr

/-- `parse_args` loop body (main.rs:191-211), recursing over the
argument list after the program name. -/
def parse_args_go : List String → Args → Except Err Args
  | [], a => Except.ok a
  | arg :: rest, a =>
    if arg = "--log-level" then
      match rest with
      | [] => Except.error (Err.Usage "Did not give argument to --log-level")
      | lvl :: more =>
        match levelFilterFromStr lvl with
        | some l => parse_args_go more { a with log_level := l }
        | none => Except.error (Err.LogLevel lvl)
    else if arg = "-c" ∨ arg = "--config-path" then
      match rest with
      | [] => Except.error (Err.Usage "Did not give argument to --config-path")
      | p :: more => parse_args_go more { a with config_path := p }
    else
      parse_args_go rest a

/-- `parse_args` (main.rs:187-214): skips the program name (`args.skip(1)`)
then folds the remaining arguments over the default `Args`. -/
def parse_args (argv : List String) : Except Err Args :=
  parse_args_go (argv.drop 1) Args.default

/-- The `std::process::Output` fields the program consumes. -/
structure CmdOutput where
  stdout : String
  stderr : String
  success : Bool
deriving DecidableEq, Repr

/-- Outcome of attempting one external command: it either launched and
produced an output, or could not be launched at all. -/
inductive ExecOutcome where
  | launched (output : CmdOutput)
  | launchFailed (msg : String)
deriving DecidableEq, Repr

/-- One external invocation (binary path and argument list). -/
structure Invocation where
  bin_path : String
  args : List String
deriving DecidableEq, Repr

/-- Environment oracle: the outcome of the `n`-th external command call of
the process, given the invocation issued there. -/
def World := Nat → Invocation → ExecOutcome

/-- The `command` wrapper (main.rs:64-86) applied to an outcome: launch
failure becomes `ExecutionFailure`, a non-success exit becomes
`CommandFailure` with the captured stderr, success yields stdout. -/
def command (outcome : ExecOutcome) (bin_path : String) : Except Err String :=
  match outcome with
  | ExecOutcome.launchFailed msg => Except.error (Err.ExecutionFailure bin_path msg)
  | ExecOutcome.launched output =>
    if output.success then Except.ok output.stdout
    else Except.error (Err.CommandFailure bin_path output.stderr)

/-- Issue one external command: consult the world at the current call index,
advance the index, and append the invocation to the trace. -/
def call (w : World) (n : Nat) (tr : List Invocation) (inv : Invocation) :
    Except Err String × Nat × List Invocation :=
  (command (w n inv) inv.bin_path, n + 1, tr ++ [inv])

/-- The nvidia-smi binary path used by every GPU command. -/
def nvidiaSmiPath : String := "/usr/libexec/nvidia/tesla/bin/nvidia-smi"

/-- The hardware-query invocation of `run_gpu_query` (main.rs:159). -/
def query_gpu_inv : Invocation :=
  ⟨nvidiaSmiPath, ["--query-gpu=gpu_name,mig.mode.current,mig.mode.pending",
                   "--format=csv,noheader"]⟩

/-- The enable-MIG invocation of `set_mig_mode` (main.rs:137). -/
def mig_enable_inv : Invocation := ⟨nvidiaSmiPath, ["-mig", "1"]⟩

/-- The partition-profile invocation of `set_mig_profile` (main.rs:154). -/
def mig_profile_inv : Invocation := ⟨nvidiaSmiPath, ["mig", "-cgi", "9,9", "-C"]⟩

/-- The reboot request `command("apiclient", ["reboot"])` (main.rs:232). -/
def reboot_inv : Invocation := ⟨"apiclient", ["reboot"]⟩

/-- `run_gpu_query` (main.rs:158-184): issue the query command and parse its
stdout into records. -/
def run_gpu_query (w : World) (n : Nat) (tr : List Invocation) :
    Except Err (List GpuRec) × Nat × List Invocation :=
  match call w n tr query_gpu_inv with
  | (Except.error e, n', tr') => (Except.error e, n', tr')
  | (Except.ok output, n', tr') => (Except.ok (run_gpu_query_parse output), n', tr')

/-- `set_mig_mode` (main.rs:136-139). -/
def set_mig_mode (w : World) (n : Nat) (tr : List Invocation) :
    Except Err Unit × Nat × List Invocation :=
  match call w n tr mig_enable_inv with
  | (Except.error e, n', tr') => (Except.error e, n', tr')
  | (Except.ok _, n', tr') => (Except.ok (), n', tr')

/-- `set_mig_profile` (main.rs:153-156). -/
def set_mig_profile (w : World) (n : Nat) (tr : List Invocation) :
    Except Err Unit × Nat × List Invocation :=
  match call w n tr mig_profile_inv with
  | (Except.error e, n', tr') => (Except.error e, n', tr')
  | (Except.ok _, n', tr') => (Except.ok (), n', tr')

instance exceptDecEq {ε α : Type} [DecidableEq ε] [DecidableEq α] :
    DecidableEq (Except ε α) := fun x y =>
  match x, y with
  | Except.ok a, Except.ok b =>
    if h : a = b then Decidable.isTrue (by rw [h]) else Decidable.isFalse (by simp [h])
  | Except.error a, Except.error b =>
    if h : a = b then Decidable.isTrue (by rw [h]) else Decidable.isFalse (by simp [h])
  | Except.ok _, Except.error _ => Decidable.isFalse (by simp)
  | Except.error _, Except.ok _ => Decidable.isFalse (by simp)

/-- Result of one process run: the `run` return value, the trace of external
invocations issued, and the filter level the logger was initialized with
(`none` when argument parsing failed before logger setup). -/
structure RunResult where
  result : Except Err Unit
  trace : List Invocation
  loggerInit : Option LevelFilter
deriving DecidableEq, Repr

/-- `run` (main.rs:216-239): parse the arguments, initialize the logger at
`LevelFilter::Info`, query and analyze, then dispatch on
`(is_mig_capable, overall_mig_mode)`; the `Disabled` branch enables MIG,
re-queries and re-analyzes (discarding the result) and requests a reboot. -/
def run (w : World) (argv : List String) : RunResult :=
  match parse_args argv with
  | Except.error e => ⟨Except.error e, [], none⟩
  | Except.ok _args =>
    match run_gpu_query w 0 [] with
    | (Except.error e, _, tr) => ⟨Except.error e, tr, some LevelFilter.Info⟩
    | (Except.ok modes, n, tr) =>
      let (capable, overall_mig_mode) := analyze_mig_status modes
      if capable then
        if overall_mig_mode = MigState.Disabled then
          match set_mig_mode w n tr with
          | (Except.error e, _, tr') => ⟨Except.error e, tr', some LevelFilter.Info⟩
          | (Except.ok _, n', tr') =>
            match run_gpu_query w n' tr' with
            | (Except.error e, _, tr'') => ⟨Except.error e, tr'', some LevelFilter.Info⟩
            | (Except.ok modes2, n'', tr'') =>
              let _ := analyze_mig_status modes2
              match call w n'' tr'' reboot_inv with
              | (Except.error e, _, tr3) => ⟨Except.error e, tr3, some LevelFilter.Info⟩
              | (Except.ok _, _, tr3) => ⟨Except.ok (), tr3, some LevelFilter.Info⟩
        else if overall_mig_mode = MigState.Enabled then
          match set_mig_profile w n tr with
          | (Except.error e, _, tr') => ⟨Except.error e, tr', some LevelFilter.Info⟩
          | (Except.ok _, _, tr') => ⟨Except.ok (), tr', some LevelFilter.Info⟩
        else
          ⟨Except.ok (), tr, some LevelFilter.Info⟩
      else
        ⟨Except.ok (), tr, some LevelFilter.Info⟩

/-- The `snafu(display(...))` message of each error variant. -/
def Err.message : Err → String
  | Err.CommandFailure bin_path stderr =>
      String.append (String.append (String.append "'" bin_path) "' failed - stderr: ") stderr
  | Err.ExecutionFailure cmd msg =>
      String.append (String.append (String.append "Failed to execute '" cmd) "': ") msg
  | Err.Logger msg => String.append "Logger setup error: " msg
  | Err.LogLevel log_level =>
      String.append (String.append "Invalid log level '" log_level) "'"
  | Err.Usage message => message

/-- `main` (main.rs:241-248): on error, print the message once to stderr and
exit 1; otherwise exit 0.  Returns the exit code, the stderr lines printed,
and the run result. -/
def main (w : World) (argv : List String) : Nat × List String × RunResult :=
  let r := run w argv
  match r.result with
  | Except.error e => (1, [Err.message e], r)
  | Except.ok _ => (0, [], r)

/-- The decision table of spec §4.2 for a fleet agreeing on current `c` and
pending `p`.  Modelled from the spec's table, to be compared with the
branch structure of `get_mig_mode`. -/
def migTable (c p : MigState) : MigState :=
  match c, p with
  | MigState.Enabled, MigState.Enabled => MigState.Enabled
  | MigState.Disabled, MigState.Disabled => MigState.Disabled
  | MigState.Disabled, MigState.Enabled => MigState.Transition
  | _, _ => MigState.Unknown

/-- The per-line parse of `run_gpu_query`: `some` record for an
exactly-3-field line, `none` otherwise. -/
def parseLine (line : String) : Option GpuRec :=
  let parts := splitCommaSpace line
  if parts.length = 3 then
    some (parts[0]!,
      (if parts[1]! = "Enabled" then MigState.Enabled
       else if parts[1]! = "Disabled" then MigState.Disabled
       else MigState.Unknown),
      (if parts[2]! = "Enabled" then MigState.Enabled
       else if parts[2]! = "Disabled" then MigState.Disabled
       else MigState.Unknown))
  else none

/-- Relation between two argument-parse results: same error, or success with
the same config path (the log level may differ). -/
def ArgsAgree : Except Err Args → Except Err Args → Prop
  | Except.error e, Except.error e' => e = e'
  | Except.ok a, Except.ok b => a.config_path = b.config_path
  | _, _ => False

/-- Concrete world for witnesses: first query reports one GPU
`Disabled/Disabled`, the re-query reports `Disabled/Enabled`, every other
command succeeds silently. -/
def wDisabledW : World := fun n _ =>
  if n = 0 then ExecOutcome.launched ⟨"A, Disabled, Disabled\n", "", true⟩
  else if n = 2 then ExecOutcome.launched ⟨"A, Disabled, Enabled\n", "", true⟩
  else ExecOutcome.launched ⟨"", "", true⟩

/-- Concrete world for witnesses: every query reports one GPU
`Enabled/Enabled`, every command succeeds. -/
def wEnabledW : World := fun _ _ =>
  ExecOutcome.launched ⟨"A, Enabled, Enabled\n", "", true⟩

/-- Concrete world for witnesses: the query command exits non-zero. -/
def wFailW : World := fun _ _ =>
  ExecOutcome.launched ⟨"", "query failed", false⟩

/-! ### Helper lemmas -/

lemma dedup_eq_singleton_iff {α : Type} [DecidableEq α] (l : List α) (x : α) :
    l.dedup = [x] ↔ l ≠ [] ∧ ∀ a ∈ l, a = x := by
  constructor
  · intro h
    refine ⟨?_, ?_⟩
    · intro hnil
      rw [hnil, List.dedup_nil] at h
      exact List.noConfusion h
    · intro a ha
      have hm : a ∈ l.dedup := List.mem_dedup.mpr ha
      rw [h] at hm
      simpa using hm
  · rintro ⟨hne, hall⟩
    induction l with
    | nil => exact absurd rfl hne
    | cons b t ih =>
      have hb : b = x := hall b (by simp)
      cases t with
      | nil => simp [hb]
      | cons c t' =>
        have hc : c = x := hall c (by simp)
        have hmem : b ∈ c :: t' := by
          rw [hb, ← hc]; simp
        rw [List.dedup_cons_of_mem hmem]
        exact ih (by simp) (fun a ha => hall a (List.mem_cons_of_mem b ha))

lemma is_mig_capable_true_iff (modes : List GpuRec) :
    is_mig_capable modes = true ↔
      ∃ r ∈ modes, r.2.1 ≠ MigState.Unknown ∨ r.2.2 ≠ MigState.Unknown := by
  induction modes with
  | nil => simp [is_mig_capable]
  | cons r rest ih =>
    obtain ⟨nm, c, p⟩ := r
    by_cases h : c ≠ MigState.Unknown ∨ p ≠ MigState.Unknown
    · simp only [is_mig_capable, if_pos h]
      constructor
      · intro _
        exact ⟨(nm, c, p), by simp, h⟩
      · intro _; trivial
    · simp only [is_mig_capable, if_neg h]
      rw [ih]
      constructor
      · rintro ⟨s, hs, hprop⟩
        exact ⟨s, List.mem_cons_of_mem _ hs, hprop⟩
      · rintro ⟨s, hs, hprop⟩
        rcases List.mem_cons.mp hs with heq | hmem
        · exfalso
          apply h
          rw [heq] at hprop
          exact hprop
        · exact ⟨s, hmem, hprop⟩

lemma get_mig_mode_singletons (modes : List GpuRec) (c p : MigState)
    (hc : (modes.map fun m => m.2.1).dedup = [c])
    (hp : (modes.map fun m => m.2.2).dedup = [p]) :
    get_mig_mode modes = migTable c p := by
  simp only [get_mig_mode]
  rw [hc, hp]
  cases c <;> cases p <;> simp [migTable]

lemma get_mig_mode_unknown_cur (modes : List GpuRec)
    (h : ∀ c, (modes.map fun m => m.2.1).dedup ≠ [c]) :
    get_mig_mode modes = MigState.Unknown := by
  simp only [get_mig_mode]
  rcases h1 : (modes.map fun m => m.2.1).dedup with _ | ⟨c, _ | ⟨c2, cs⟩⟩
  · rcases h2 : (modes.map fun m => m.2.2).dedup with _ | ⟨q, _ | ⟨q2, qs⟩⟩ <;>
      rw [h1, h2]
  · exact absurd h1 (h c)
  · rcases h2 : (modes.map fun m => m.2.2).dedup with _ | ⟨q, _ | ⟨q2, qs⟩⟩ <;>
      rw [h1, h2]

lemma get_mig_mode_unknown_pend (modes : List GpuRec)
    (h : ∀ p, (modes.map fun m => m.2.2).dedup ≠ [p]) :
    get_mig_mode modes = MigState.Unknown := by
  simp only [get_mig_mode]
  rcases h2 : (modes.map fun m => m.2.2).dedup with _ | ⟨q, _ | ⟨q2, qs⟩⟩
  · rcases h1 : (modes.map fun m => m.2.1).dedup with _ | ⟨c, _ | ⟨c2, cs⟩⟩ <;>
      rw [h1, h2]
  · exact absurd h2 (h q)
  · rcases h1 : (modes.map fun m => m.2.1).dedup with _ | ⟨c, _ | ⟨c2, cs⟩⟩ <;>
      rw [h1, h2]

/-! ### Claims about the mode analyzer -/

/-- C4: `is_mig_capable` returns true iff some record has a non-`Unknown`
current or pending state, and returns false on the empty snapshot. -/
theorem is_mig_capable_spec (modes : List GpuRec) :
    (is_mig_capable modes = true ↔
      ∃ r ∈ modes, r.2.1 ≠ MigState.Unknown ∨ r.2.2 ≠ MigState.Unknown)
    ∧ is_mig_capable [] = false :=
  ⟨is_mig_capable_true_iff modes, rfl⟩

/-- C1: when all records agree on one current value `C` and one pending
value `P`, `get_mig_mode` follows the decision table (`Enabled/Enabled ↦
Enabled`, `Disabled/Disabled ↦ Disabled`, `Disabled/Enabled ↦ Transition`,
anything else ↦ `Unknown`); an empty snapshot, or disagreement in current
or pending values, yields `Unknown`. -/
theorem get_mig_mode_agreement (modes : List GpuRec) :
    (∀ C P : MigState, modes ≠ [] →
        (∀ r ∈ modes, r.2.1 = C ∧ r.2.2 = P) →
        get_mig_mode modes = migTable C P)
    ∧ (modes = [] → get_mig_mode modes = MigState.Unknown)
    ∧ ((∃ r ∈ modes, ∃ s ∈ modes, r.2.1 ≠ s.2.1 ∨ r.2.2 ≠ s.2.2) →
        get_mig_mode modes = MigState.Unknown) := by
  refine ⟨?_, ?_, ?_⟩
  · intro C P hne hall
    apply get_mig_mode_singletons
    · rw [dedup_eq_singleton_iff]
      refine ⟨by simpa using hne, ?_⟩
      intro a ha
      obtain ⟨r, hr, hra⟩ := List.mem_map.mp ha
      rw [← hra]
      exact (hall r hr).1
    · rw [dedup_eq_singleton_iff]
      refine ⟨by simpa using hne, ?_⟩
      intro a ha
      obtain ⟨r, hr, hra⟩ := List.mem_map.mp ha
      rw [← hra]
      exact (hall r hr).2
  · intro h; rw [h]; rfl
  · rintro ⟨r, hr, s, hs, hdiff | hdiff⟩
    · apply get_mig_mode_unknown_cur
      intro c hc
      rw [dedup_eq_singleton_iff] at hc
      have h1 := hc.2 r.2.1 (List.mem_map.mpr ⟨r, hr, rfl⟩)
      have h2 := hc.2 s.2.1 (List.mem_map.mpr ⟨s, hs, rfl⟩)
      exact hdiff (h1.trans h2.symm)
    · apply get_mig_mode_unknown_pend
      intro p hp
      rw [dedup_eq_singleton_iff] at hp
      have h1 := hp.2 r.2.2 (List.mem_map.mpr ⟨r, hr, rfl⟩)
      have h2 := hp.2 s.2.2 (List.mem_map.mpr ⟨s, hs, rfl⟩)
      exact hdiff (h1.trans h2.symm)

/-- Witness for C1 at a concrete snapshot: one GPU with
`Disabled/Enabled` aggregates to the table entry `Transition`. -/
theorem get_mig_mode_agreement_witness :
    get_mig_mode [("a", MigState.Disabled, MigState.Enabled)] =
      migTable MigState.Disabled MigState.Enabled :=
  (get_mig_mode_agreement [("a", MigState.Disabled, MigState.Enabled)]).1
    MigState.Disabled MigState.Enabled (by decide) (by decide)

/-- C9: whenever `get_mig_mode` resolves to a value other than `Unknown`,
`is_mig_capable` is true on the same snapshot. -/
theorem resolved_mode_implies_capable (modes : List GpuRec)
    (h : get_mig_mode modes ≠ MigState.Unknown) :
    is_mig_capable modes = true := by
  by_contra hcap
  apply h
  have hall : ∀ r ∈ modes, r.2.1 = MigState.Unknown ∧ r.2.2 = MigState.Unknown := by
    intro r hr
    by_contra hne
    apply hcap
    rw [is_mig_capable_true_iff]
    refine ⟨r, hr, ?_⟩
    by_cases h1 : r.2.1 = MigState.Unknown
    · right
      intro h2
      exact hne ⟨h1, h2⟩
    · left; exact h1
  cases hmodes : modes with
  | nil => rfl
  | cons r rest =>
    rw [← hmodes]
    have := (get_mig_mode_agreement modes).1 MigState.Unknown MigState.Unknown
      (by rw [hmodes]; simp) hall
    rw [this]
    rfl

/-- Witness for C9 at a concrete snapshot with a resolved mode. -/
theorem resolved_mode_implies_capable_witness :
    is_mig_capable [("a", MigState.Disabled, MigState.Enabled)] = true :=
  resolved_mode_implies_capable [("a", MigState.Disabled, MigState.Enabled)]
    (by decide)

/-- C7: `get_mig_mode` is invariant under permutation of the snapshot and
under duplication of any of its records. -/
theorem get_mig_mode_perm_dup (modes modes' : List GpuRec) :
    (modes.Perm modes' → get_mig_mode modes = get_mig_mode modes')
    ∧ (∀ r ∈ modes, get_mig_mode (r :: modes) = get_mig_mode modes) := by
  constructor
  · intro hperm
    have hc : ((modes.map fun m => m.2.1).dedup).Perm
        ((modes'.map fun m => m.2.1).dedup) := (hperm.map _).dedup
    have hp : ((modes.map fun m => m.2.2).dedup).Perm
        ((modes'.map fun m => m.2.2).dedup) := (hperm.map _).dedup
    by_cases hex : ∃ c, (modes.map fun m => m.2.1).dedup = [c]
    · obtain ⟨c, hc1⟩ := hex
      have hc2 : (modes'.map fun m => m.2.1).dedup = [c] := by
        apply List.perm_singleton.mp
        rw [← hc1]
        exact hc.symm
      by_cases hexp : ∃ p, (modes.map fun m => m.2.2).dedup = [p]
      · obtain ⟨p, hp1⟩ := hexp
        have hp2 : (modes'.map fun m => m.2.2).dedup = [p] := by
          apply List.perm_singleton.mp
          rw [← hp1]
          exact hp.symm
        rw [get_mig_mode_singletons modes c p hc1 hp1,
          get_mig_mode_singletons modes' c p hc2 hp2]
      · have hnp : ∀ p, (modes.map fun m => m.2.2).dedup ≠ [p] := by
          intro p hcontra
          exact hexp ⟨p, hcontra⟩
        have hnp' : ∀ p, (modes'.map fun m => m.2.2).dedup ≠ [p] := by
          intro p hcontra
          refine hexp ⟨p, ?_⟩
          apply List.perm_singleton.mp
          rw [← hcontra]
          exact hp
        rw [get_mig_mode_unknown_pend modes hnp,
          get_mig_mode_unknown_pend modes' hnp']
    · have hnc : ∀ c, (modes.map fun m => m.2.1).dedup ≠ [c] := by
        intro c hcontra
        exact hex ⟨c, hcontra⟩
      have hnc' : ∀ c, (modes'.map fun m => m.2.1).dedup ≠ [c] := by
        intro c hcontra
        refine hex ⟨c, ?_⟩
        apply List.perm_singleton.mp
        rw [← hcontra]
        exact hc
      rw [get_mig_mode_unknown_cur modes hnc,
        get_mig_mode_unknown_cur modes' hnc']
  · intro r hr
    have hc : ((r :: modes).map fun m => m.2.1).dedup
        = (modes.map fun m => m.2.1).dedup := by
      rw [List.map_cons]
      exact List.dedup_cons_of_mem (List.mem_map.mpr ⟨r, hr, rfl⟩)
    have hp : ((r :: modes).map fun m => m.2.2).dedup
        = (modes.map fun m => m.2.2).dedup := by
      rw [List.map_cons]
      exact List.dedup_cons_of_mem (List.mem_map.mpr ⟨r, hr, rfl⟩)
    simp only [get_mig_mode]
    rw [hc, hp]

/-- Witness for C7 on a concrete two-record snapshot and its reversal. -/
theorem get_mig_mode_perm_dup_witness :
    get_mig_mode [("a", MigState.Disabled, MigState.Enabled),
                  ("b", MigState.Enabled, MigState.Enabled)] =
      get_mig_mode [("b", MigState.Enabled, MigState.Enabled),
                    ("a", MigState.Disabled, MigState.Enabled)] :=
  (get_mig_mode_perm_dup
      [("a", MigState.Disabled, MigState.Enabled),
       ("b", MigState.Enabled, MigState.Enabled)]
      [("b", MigState.Enabled, MigState.Enabled),
       ("a", MigState.Disabled, MigState.Enabled)]).1
    (by decide)

/-! ### Claims about the GPU state reader -/

lemma run_gpu_query_parse_go (lines : List String) (acc : List GpuRec) :
    lines.foldl
      (fun modes line =>
        let parts := splitCommaSpace line
        if parts.length = 3 then
          let current :=
            if parts[1]! = "Enabled" then MigState.Enabled
            else if parts[1]! = "Disabled" then MigState.Disabled
            else MigState.Unknown
          let pending :=
            if parts[2]! = "Enabled" then MigState.Enabled
            else if parts[2]! = "Disabled" then MigState.Disabled
            else MigState.Unknown
          modes ++ [(parts[0]!, current, pending)]
        else modes)
      acc = acc ++ lines.filterMap parseLine := by
  induction lines generalizing acc with
  | nil => simp
  | cons line rest ih =>
    rw [List.foldl_cons, ih, List.filterMap_cons]
    by_cases h : (splitCommaSpace line).length = 3
    · simp [parseLine, h]
    · simp [parseLine, h]

lemma run_gpu_query_parse_eq_filterMap (output : String) :
    run_gpu_query_parse output = (rustLines output).filterMap parseLine := by
  rw [run_gpu_query_parse, run_gpu_query_parse_go, List.nil_append]

lemma parseLine_eq_match (line : String) :
    parseLine line =
      (match splitCommaSpace line with
       | [name, cur, pend] =>
         some (name,
           (if cur = "Enabled" then MigState.Enabled
            else if cur = "Disabled" then MigState.Disabled
            else MigState.Unknown),
           (if pend = "Enabled" then MigState.Enabled
            else if pend = "Disabled" then MigState.Disabled
            else MigState.Unknown))
       | _ => none) := by
  rcases h : splitCommaSpace line with _ | ⟨a, _ | ⟨b, _ | ⟨c, _ | ⟨d, r⟩⟩⟩⟩ <;>
    simp [parseLine, h]

/-- C5: the records produced from a raw query output are exactly the
per-line parses: each line splitting into exactly 3 comma-space-separated
fields yields one record, with `"Enabled"`/`"Disabled"` mapped exactly and
any other field text mapped to `Unknown`; every line with a different field
count yields no record and leaves the remaining lines' records intact. -/
theorem run_gpu_query_parse_per_line (output : String) :
    run_gpu_query_parse output =
      (rustLines output).filterMap fun line =>
        match splitCommaSpace line with
        | [name, cur, pend] =>
          some (name,
            (if cur = "Enabled" then MigState.Enabled
             else if cur = "Disabled" then MigState.Disabled
             else MigState.Unknown),
            (if pend = "Enabled" then MigState.Enabled
             else if pend = "Disabled" then MigState.Disabled
             else MigState.Unknown))
        | _ => none := by
  rw [run_gpu_query_parse_eq_filterMap]
  exact List.filterMap_congr (fun line _ => parseLine_eq_match line)

/-- C8: every record produced by the GPU state reader has current and
pending states among `Enabled`, `Disabled`, `Unknown` — never `Transition`,
whatever the raw query output text. -/
theorem run_gpu_query_no_transition (output : String) (r : GpuRec)
    (hr : r ∈ run_gpu_query_parse output) :
    r.2.1 ≠ MigState.Transition ∧ r.2.2 ≠ MigState.Transition := by
  rw [run_gpu_query_parse_eq_filterMap] at hr
  obtain ⟨line, _, hparse⟩ := List.mem_filterMap.mp hr
  simp only [parseLine] at hparse
  by_cases h : (splitCommaSpace line).length = 3
  · rw [if_pos h, Option.some.injEq] at hparse
    rw [← hparse]
    constructor
    · by_cases h1 : (splitCommaSpace line)[1]! = "Enabled" <;>
        by_cases h2 : (splitCommaSpace line)[1]! = "Disabled" <;>
          simp [h1, h2]
    · by_cases h1 : (splitCommaSpace line)[2]! = "Enabled" <;>
        by_cases h2 : (splitCommaSpace line)[2]! = "Disabled" <;>
          simp [h1, h2]
  · rw [if_neg h] at hparse
    exact Option.noConfusion hparse

/-- Witness for C8 at a concrete query output containing an unparseable
mode field. -/
theorem run_gpu_query_no_transition_witness :
    ("A", MigState.Enabled, MigState.Unknown)
        ∈ run_gpu_query_parse "A, Enabled, x\nbanner noise\n" ∧
      MigState.Enabled ≠ MigState.Transition ∧
      MigState.Unknown ≠ MigState.Transition :=
  ⟨by decide,
   run_gpu_query_no_transition "A, Enabled, x\nbanner noise\n"
     ("A", MigState.Enabled, MigState.Unknown) (by decide)⟩

/-! ### Claims about the reconciliation driver -/

/-- C2: when the first snapshot analyzes to capable with aggregate mode
`Disabled` and every step succeeds, the driver issues the enable-MIG
command, re-queries exactly once (the refreshed result `s3` does not appear
in the conclusion, so it influences nothing), and issues exactly one reboot
request: the trace is query, enable, query, reboot. -/
theorem run_disabled_branch (w : World) (argv : List String) (a : Args)
    (s s2 s3 s4 e1 e2 e3 e4 : String)
    (hargs : parse_args argv = Except.ok a)
    (h0 : w 0 query_gpu_inv = ExecOutcome.launched ⟨s, e1, true⟩)
    (hcap : is_mig_capable (run_gpu_query_parse s) = true)
    (hmode : get_mig_mode (run_gpu_query_parse s) = MigState.Disabled)
    (h1 : w 1 mig_enable_inv = ExecOutcome.launched ⟨s2, e2, true⟩)
    (h2 : w 2 query_gpu_inv = ExecOutcome.launched ⟨s3, e3, true⟩)
    (h3 : w 3 reboot_inv = ExecOutcome.launched ⟨s4, e4, true⟩) :
    run w argv = ⟨Except.ok (),
      [query_gpu_inv, mig_enable_inv, query_gpu_inv, reboot_inv],
      some LevelFilter.Info⟩ := by
  simp [run, hargs, run_gpu_query, set_mig_mode, call, command, h0, h1, h2, h3,
    analyze_mig_status, hcap, hmode]

/-- Witness for C2 in a concrete world whose first query reports
`Disabled/Disabled` and whose re-query reports `Disabled/Enabled`. -/
theorem run_disabled_branch_witness :
    run wDisabledW ["prog"] = ⟨Except.ok (),
      [query_gpu_inv, mig_enable_inv, query_gpu_inv, reboot_inv],
      some LevelFilter.Info⟩ :=
  run_disabled_branch wDisabledW ["prog"] Args.default
    "A, Disabled, Disabled\n" "" "A, Disabled, Enabled\n" "" "" "" "" ""
    (by decide) (by decide) (by decide) (by decide) (by decide) (by decide)
    (by decide)

/-- C3: in the remaining branches the driver issues nothing beyond the
initial query (not capable, or aggregate `Transition`/`Unknown`) and exits
0, and in the capable-`Enabled` branch it issues only the
apply-partition-profile command and exits 0 when it succeeds. -/
theorem run_other_branches (w : World) (argv : List String) (a : Args)
    (s e1 : String)
    (hargs : parse_args argv = Except.ok a)
    (h0 : w 0 query_gpu_inv = ExecOutcome.launched ⟨s, e1, true⟩) :
    (is_mig_capable (run_gpu_query_parse s) = false →
        main w argv = (0, [], ⟨Except.ok (), [query_gpu_inv],
          some LevelFilter.Info⟩))
    ∧ (is_mig_capable (run_gpu_query_parse s) = true →
        (get_mig_mode (run_gpu_query_parse s) = MigState.Transition ∨
         get_mig_mode (run_gpu_query_parse s) = MigState.Unknown) →
        main w argv = (0, [], ⟨Except.ok (), [query_gpu_inv],
          some LevelFilter.Info⟩))
    ∧ (∀ s2 e2, is_mig_capable (run_gpu_query_parse s) = true →
        get_mig_mode (run_gpu_query_parse s) = MigState.Enabled →
        w 1 mig_profile_inv = ExecOutcome.launched ⟨s2, e2, true⟩ →
        main w argv = (0, [], ⟨Except.ok (),
          [query_gpu_inv, mig_profile_inv], some LevelFilter.Info⟩)) := by
  refine ⟨?_, ?_, ?_⟩
  · intro hcap
    simp [main, run, hargs, run_gpu_query, call, command, h0,
      analyze_mig_status, hcap]
  · intro hcap hmode
    rcases hmode with hmode | hmode <;>
      simp [main, run, hargs, run_gpu_query, call, command, h0,
        analyze_mig_status, hcap, hmode]
  · intro s2 e2 hcap hmode h1
    simp [main, run, hargs, run_gpu_query, set_mig_profile, call, command, h0,
      h1, analyze_mig_status, hcap, hmode]

/-- Witness for C3 in a concrete world reporting one GPU
`Enabled/Enabled`: only the partition-profile command follows the query. -/
theorem run_other_branches_witness :
    main wEnabledW ["prog"] = (0, [], ⟨Except.ok (),
      [query_gpu_inv, mig_profile_inv], some LevelFilter.Info⟩) :=
  (run_other_branches wEnabledW ["prog"] Args.default "A, Enabled, Enabled\n" ""
      (by decide) (by decide)).2.2 "A, Enabled, Enabled\n" ""
    (by decide) (by decide) (by decide)

/-- C6: if the hardware-query command exits non-zero the run fails with
`CommandFailure` (or `ExecutionFailure` when the process cannot launch),
nothing beyond the query is attempted, the message is printed once to
stderr and the process exits 1. -/
theorem run_query_failure (w : World) (argv : List String) (a : Args)
    (hargs : parse_args argv = Except.ok a) :
    (∀ s es, w 0 query_gpu_inv = ExecOutcome.launched ⟨s, es, false⟩ →
        run w argv = ⟨Except.error (Err.CommandFailure nvidiaSmiPath es),
            [query_gpu_inv], some LevelFilter.Info⟩ ∧
          main w argv = (1,
            [Err.message (Err.CommandFailure nvidiaSmiPath es)], run w argv))
    ∧ (∀ msg, w 0 query_gpu_inv = ExecOutcome.launchFailed msg →
        run w argv = ⟨Except.error (Err.ExecutionFailure nvidiaSmiPath msg),
            [query_gpu_inv], some LevelFilter.Info⟩ ∧
          main w argv = (1,
            [Err.message (Err.ExecutionFailure nvidiaSmiPath msg)],
            run w argv)) := by
  constructor
  · intro s es h0
    constructor
    · simp [run, hargs, run_gpu_query, call, command, h0]
      rfl
    · simp [main, run, hargs, run_gpu_query, call, command, h0]
      rfl
  · intro msg h0
    constructor
    · simp [run, hargs, run_gpu_query, call, command, h0]
      rfl
    · simp [main, run, hargs, run_gpu_query, call, command, h0]
      rfl

/-- Witness for C6 in a concrete world whose query command exits non-zero. -/
theorem run_query_failure_witness :
    run wFailW ["prog"] = ⟨Except.error
        (Err.CommandFailure nvidiaSmiPath "query failed"),
      [query_gpu_inv], some LevelFilter.Info⟩ ∧
    main wFailW ["prog"] = (1,
      [Err.message (Err.CommandFailure nvidiaSmiPath "query failed")],
      run wFailW ["prog"]) :=
  (run_query_failure wFailW ["prog"] Args.default (by decide)).1
    "" "query failed" (by decide)

lemma valid_level_not_flag (v : String) (l : LevelFilter)
    (h : levelFilterFromStr v = some l) :
    v ≠ "--log-level" ∧ ¬(v = "-c" ∨ v = "--config-path") := by
  constructor
  · intro hv
    rw [hv] at h
    have hnone : levelFilterFromStr "--log-level" = none := by decide
    rw [hnone] at h
    exact Option.noConfusion h
  · rintro (hv | hv) <;> rw [hv] at h
    · have hnone : levelFilterFromStr "-c" = none := by decide
      rw [hnone] at h
      exact Option.noConfusion h
    · have hnone : levelFilterFromStr "--config-path" = none := by decide
      rw [hnone] at h
      exact Option.noConfusion h

lemma parse_args_go_log_level (lvl : String) (more : List String) (a : Args) :
    parse_args_go ("--log-level" :: lvl :: more) a =
      (match levelFilterFromStr lvl with
       | some l => parse_args_go more { a with log_level := l }
       | none => Except.error (Err.LogLevel lvl)) := by
  rw [parse_args_go.eq_def]
  rfl

lemma parse_args_go_config (arg : String)
    (h : arg = "-c" ∨ arg = "--config-path")
    (p : String) (more : List String) (a : Args) :
    parse_args_go (arg :: p :: more) a
      = parse_args_go more { a with config_path := p } := by
  rcases h with h | h <;> subst h <;> rfl

lemma parse_args_go_config_nil (arg : String)
    (h : arg = "-c" ∨ arg = "--config-path") (a : Args) :
    parse_args_go [arg] a
      = Except.error (Err.Usage "Did not give argument to --config-path") := by
  rcases h with h | h <;> subst h <;> rfl

lemma parse_args_go_skip (v : String) (rest : List String) (a : Args)
    (hv1 : v ≠ "--log-level") (hv2 : ¬(v = "-c" ∨ v = "--config-path")) :
    parse_args_go (v :: rest) a = parse_args_go rest a := by
  rw [parse_args_go.eq_def]
  simp only [if_neg hv1, if_neg hv2]

lemma parse_args_go_congr_aux :
    ∀ (n : Nat) (l : List String), l.length ≤ n →
      ∀ (a1 a2 : Args), a1.config_path = a2.config_path →
        ArgsAgree (parse_args_go l a1) (parse_args_go l a2) := by
  intro n
  induction n with
  | zero =>
    intro l hlen a1 a2 hcfg
    have hnil : l = [] := List.eq_nil_of_length_eq_zero (Nat.le_zero.mp hlen)
    subst hnil
    exact hcfg
  | succ n ih =>
    intro l hlen a1 a2 hcfg
    cases l with
    | nil => exact hcfg
    | cons arg rest =>
      by_cases hf1 : arg = "--log-level"
      · subst hf1
        cases rest with
        | nil => exact rfl
        | cons lvl more =>
          rw [parse_args_go_log_level, parse_args_go_log_level]
          rcases hl : levelFilterFromStr lvl with _ | lv
          · exact rfl
          · refine ih more ?_ _ _ hcfg
            simp only [List.length_cons] at hlen
            omega
      · by_cases hf2 : arg = "-c" ∨ arg = "--config-path"
        · cases rest with
          | nil =>
            rw [parse_args_go_config_nil arg hf2, parse_args_go_config_nil arg hf2]
            exact rfl
          | cons p more =>
            rw [parse_args_go_config arg hf2, parse_args_go_config arg hf2]
            refine ih more ?_ _ _ rfl
            simp only [List.length_cons] at hlen
            omega
        · rw [parse_args_go_skip arg rest a1 hf1 hf2,
            parse_args_go_skip arg rest a2 hf1 hf2]
          refine ih rest ?_ _ _ hcfg
          simp only [List.length_cons] at hlen
          omega

lemma parse_args_go_congr (l : List String) (a1 a2 : Args)
    (hcfg : a1.config_path = a2.config_path) :
    ArgsAgree (parse_args_go l a1) (parse_args_go l a2) :=
  parse_args_go_congr_aux l.length l le_rfl a1 a2 hcfg

lemma parse_args_go_swap_base (v1 v2 : String) (l1 l2 : LevelFilter)
    (h1 : levelFilterFromStr v1 = some l1) (h2 : levelFilterFromStr v2 = some l2)
    (post : List String) (a1 a2 : Args)
    (hcfg : a1.config_path = a2.config_path) :
    ArgsAgree (parse_args_go ("--log-level" :: v1 :: post) a1)
      (parse_args_go ("--log-level" :: v2 :: post) a2) := by
  rw [parse_args_go_log_level, parse_args_go_log_level, h1, h2]
  exact parse_args_go_congr post _ _ hcfg

lemma parse_args_go_swap (v1 v2 : String) (l1 l2 : LevelFilter)
    (h1 : levelFilterFromStr v1 = some l1) (h2 : levelFilterFromStr v2 = some l2)
    (post : List String) :
    ∀ (n : Nat) (pre : List String), pre.length ≤ n →
      ∀ (a1 a2 : Args), a1.config_path = a2.config_path →
        ArgsAgree (parse_args_go (pre ++ "--log-level" :: v1 :: post) a1)
          (parse_args_go (pre ++ "--log-level" :: v2 :: post) a2) := by
  intro n
  induction n with
  | zero =>
    intro pre hlen a1 a2 hcfg
    have hnil : pre = [] := List.eq_nil_of_length_eq_zero (Nat.le_zero.mp hlen)
    subst hnil
    simpa using parse_args_go_swap_base v1 v2 l1 l2 h1 h2 post a1 a2 hcfg
  | succ n ih =>
    intro pre hlen a1 a2 hcfg
    cases pre with
    | nil => simpa using parse_args_go_swap_base v1 v2 l1 l2 h1 h2 post a1 a2 hcfg
    | cons arg pre' =>
      simp only [List.cons_append]
      by_cases hf1 : arg = "--log-level"
      · subst hf1
        cases pre' with
        | nil =>
          have hnone : levelFilterFromStr "--log-level" = none := by decide
          simp only [List.nil_append]
          rw [parse_args_go_log_level, parse_args_go_log_level, hnone]
          exact rfl
        | cons y pre'' =>
          simp only [List.cons_append]
          rw [parse_args_go_log_level, parse_args_go_log_level]
          rcases hy : levelFilterFromStr y with _ | ly
          · exact rfl
          · refine ih pre'' ?_ _ _ hcfg
            simp only [List.length_cons] at hlen
            omega
      · by_cases hf2 : arg = "-c" ∨ arg = "--config-path"
        · cases pre' with
          | nil =>
            obtain ⟨hv1a, hv1b⟩ := valid_level_not_flag v1 l1 h1
            obtain ⟨hv2a, hv2b⟩ := valid_level_not_flag v2 l2 h2
            simp only [List.nil_append]
            rw [parse_args_go_config arg hf2, parse_args_go_config arg hf2,
              parse_args_go_skip v1 post _ hv1a hv1b,
              parse_args_go_skip v2 post _ hv2a hv2b]
            exact parse_args_go_congr post _ _ rfl
          | cons y pre'' =>
            simp only [List.cons_append]
            rw [parse_args_go_config arg hf2, parse_args_go_config arg hf2]
            refine ih pre'' ?_ _ _ rfl
            simp only [List.length_cons] at hlen
            omega
        · rw [parse_args_go_skip arg _ _ hf1 hf2,
            parse_args_go_skip arg _ _ hf1 hf2]
          refine ih pre' ?_ _ _ hcfg
          simp only [List.length_cons] at hlen
          omega

/-- C10: the logger is initialized at `Info` whatever the command line, and
two argument lists differing only in the (valid) value given to
`--log-level` produce identical run behavior: the parsed level is stored
but never consumed. -/
theorem log_level_never_consumed (w : World) (pre post : List String)
    (v1 v2 : String) (l1 l2 : LevelFilter)
    (hpre : pre ≠ [])
    (h1 : levelFilterFromStr v1 = some l1)
    (h2 : levelFilterFromStr v2 = some l2) :
    run w (pre ++ "--log-level" :: v1 :: post)
        = run w (pre ++ "--log-level" :: v2 :: post)
    ∧ ∀ (argv : List String) (a : Args), parse_args argv = Except.ok a →
        (run w argv).loggerInit = some LevelFilter.Info := by
  constructor
  · have hagree : ArgsAgree (parse_args (pre ++ "--log-level" :: v1 :: post))
        (parse_args (pre ++ "--log-level" :: v2 :: post)) := by
      cases pre with
      | nil => exact absurd rfl hpre
      | cons p0 pre0 =>
        have hd1 : parse_args ((p0 :: pre0) ++ "--log-level" :: v1 :: post)
            = parse_args_go (pre0 ++ "--log-level" :: v1 :: post)
                Args.default := rfl
        have hd2 : parse_args ((p0 :: pre0) ++ "--log-level" :: v2 :: post)
            = parse_args_go (pre0 ++ "--log-level" :: v2 :: post)
                Args.default := rfl
        rw [hd1, hd2]
        exact parse_args_go_swap v1 v2 l1 l2 h1 h2 post pre0.length pre0
          le_rfl Args.default Args.default rfl
    rcases hx : parse_args (pre ++ "--log-level" :: v1 :: post) with e1 | a1 <;>
      rcases hy : parse_args (pre ++ "--log-level" :: v2 :: post) with e2 | a2 <;>
        rw [hx, hy] at hagree
    · have he : e1 = e2 := hagree
      simp only [run, hx, hy, he]
    · exact absurd hagree (by simp [ArgsAgree])
    · exact absurd hagree (by simp [ArgsAgree])
    · simp only [run, hx, hy]
  · intro argv a hargs
    simp only [run, hargs]
    repeat first | rfl | split


/-- Witness for C10: swapping `debug` for `warn` leaves the run unchanged. -/
theorem log_level_never_consumed_witness :
    run wEnabledW (["prog"] ++ "--log-level" :: "debug" :: [])
      = run wEnabledW (["prog"] ++ "--log-level" :: "warn" :: []) :=
  (log_level_never_consumed wEnabledW ["prog"] [] "debug" "warn"
    LevelFilter.Debug LevelFilter.Warn (by decide) (by decide) (by decide)).1

end MigManager
